import Mathlib

/-
  Verification development for the display-link crate (Rust sources:
  src/lib.rs, src/macos.rs, src/ios.rs, src/ios/cadisplaylink.rs).

  Shallow embedding conventions:
  * `f64` is modelled by `F64`: an idealized IEEE-754 double with exact
    rational arithmetic (no rounding), but with signed zero and the
    non-finite values (`inf`, `negInf`, `nan`) represented explicitly,
    since the code's control flow branches on finiteness and on the sign
    of zero.  All concrete values the claims mention are either exactly
    representable (1.5, 0.0, -0.0, infinity) or have a sign/magnitude
    that rounding cannot change (-0.001), so the exactness idealization
    is faithful to the branches taken.
  * `std::time::Duration` is `Duration` (seconds and sub-second
    nanoseconds as `Nat`); `std::time::Instant` is an integer count of
    nanoseconds (`Int`), with `Instant ± Duration` as exact integer
    arithmetic.
  * Rust panics inside pure helpers are modelled by `Except`; the
    trampoline's `catch_unwind` + `process::abort` boundary is modelled
    by `TrampolineOutcome`.
-/

deriving instance DecidableEq for Except

namespace DisplayLinkModel

/-- Idealized IEEE-754 binary64 value: a finite exact rational (with
`fin 0` standing for +0.0), negative zero, the two infinities and NaN. -/
inductive F64 where
  | fin : ℚ → F64
  | negZero : F64
  | inf : F64
  | negInf : F64
  | nan : F64
deriving DecidableEq

/-- Rational value of a finite `F64` (junk value 0 on non-finite input). -/
def F64.toRat : F64 → ℚ
  | .fin q => q
  | _ => 0

/-- Rust `f64::is_finite`. -/
def F64.isFinite : F64 → Bool
  | .fin _ => true
  | .negZero => true
  | _ => false

/-- Sign bit: true for negative values, negative zero and negative infinity. -/
def F64.isNeg : F64 → Bool
  | .fin q => decide (q < 0)
  | .negZero => true
  | .negInf => true
  | _ => false

/-- True for +0.0 and -0.0. -/
def F64.isZero : F64 → Bool
  | .fin q => decide (q = 0)
  | .negZero => true
  | _ => false

/-- IEEE negation. -/
def F64.neg : F64 → F64
  | .fin q => if q = 0 then .negZero else .fin (-q)
  | .negZero => .fin 0
  | .inf => .negInf
  | .negInf => .inf
  | .nan => .nan

/-- IEEE addition on the idealized doubles (exact on finite operands;
an exactly-zero sum of finite operands is +0.0 unless both operands are
-0.0, matching round-to-nearest IEEE semantics). -/
def F64.add : F64 → F64 → F64
  | .nan, _ => .nan
  | _, .nan => .nan
  | .inf, .negInf => .nan
  | .negInf, .inf => .nan
  | .inf, _ => .inf
  | _, .inf => .inf
  | .negInf, _ => .negInf
  | _, .negInf => .negInf
  | .negZero, .negZero => .negZero
  | .negZero, y => y
  | x, .negZero => x
  | .fin a, .fin b => .fin (a + b)

/-- IEEE subtraction, as addition of the negation. -/
def F64.sub (x y : F64) : F64 := x.add y.neg

/-- IEEE multiplication on the idealized doubles (exact on finite
operands; a zero product carries the XOR of the operand signs;
infinity times zero is NaN). -/
def F64.mul : F64 → F64 → F64
  | .nan, _ => .nan
  | _, .nan => .nan
  | .inf, y => if y.isZero then .nan else if y.isNeg then .negInf else .inf
  | .negInf, y => if y.isZero then .nan else if y.isNeg then .inf else .negInf
  | x, .inf => if x.isZero then .nan else if x.isNeg then .negInf else .inf
  | x, .negInf => if x.isZero then .nan else if x.isNeg then .inf else .negInf
  | x, y =>
    let p := x.toRat * y.toRat
    if p = 0 then (if x.isNeg == y.isNeg then .fin 0 else .negZero) else .fin p

/-- Rust `std::time::Duration`: whole seconds and sub-second nanoseconds.
The source always constructs it with `nanos < NANOS_PER_SEC`. -/
structure Duration where
  secs : ℕ
  nanos : ℕ
deriving DecidableEq

/-- `NANOS_PER_SEC` from `from_secs_f64` in src/ios.rs. -/
def NANOS_PER_SEC : ℕ := 1000000000

/-- Total length of a `Duration` in nanoseconds. -/
def Duration.toNanos (d : Duration) : ℕ := d.secs * NANOS_PER_SEC + d.nanos

/-- `MAX_NANOS_F64 = ((u64::MAX as u128 + 1) * NANOS_PER_SEC) as f64` from
src/ios.rs.  The value 2^64 * 10^9 = 1953125 * 2^73 has a 21-bit mantissa,
so the `as f64` cast is exact and the constant is this rational exactly. -/
def MAX_NANOS_F64 : ℚ := 18446744073709551616 * 1000000000

/-- The three `panic!` messages of `from_secs_f64` in src/ios.rs, as error
values (a panic inside the trampoline leads to `process::abort`). -/
inductive ConvError where
  | nonFinite
  | overflow
  | underflow
deriving DecidableEq

/-- `from_secs_f64` from src/ios.rs: multiply the seconds by 10^9, reject
non-finite, too-large and negative nanosecond counts, then truncate to an
integer and split into whole seconds and sub-second nanoseconds.  The
`nanos as u128` cast truncates toward zero; the preceding range checks
guarantee `0 <= nanos < 2^64 * 10^9`, so the truncation is `Rat.floor`. -/
def from_secs_f64 (secs : F64) : Except ConvError Duration :=
  let nanos := secs.mul (F64.fin (NANOS_PER_SEC : ℚ))
  if !nanos.isFinite then
    .error .nonFinite
  else if MAX_NANOS_F64 ≤ nanos.toRat then
    .error .overflow
  else if nanos.toRat < 0 then
    .error .underflow
  else
    let n : ℕ := (Rat.floor nanos.toRat).toNat
    .ok ⟨n / NANOS_PER_SEC, n % NANOS_PER_SEC⟩

/-- `std::time::Instant`, as an integer count of nanoseconds of the
process's monotonic clock (idealized: `Instant ± Duration` is exact). -/
abbrev Instant := Int

/-- `Instant + Duration` (the `start_rust + diff` in src/ios.rs). -/
def Instant.addDur (i : Instant) (d : Duration) : Instant := i + (d.toNanos : ℤ)

/-- `Instant - Duration` (the `rust_cur_time - d` in src/ios.rs). -/
def Instant.subDur (i : Instant) (d : Duration) : Instant := i - (d.toNanos : ℤ)

/-- The `Callback<F>` struct of src/ios.rs, minus the closure itself:
the lazily-established translation anchor `start_time`, an optional pair
of a native reference time (f64 seconds) and a monotonic reference
instant. -/
structure Callback where
  start_time : Option (F64 × Instant)
deriving DecidableEq

/-- The `None` arm of the anchor match in `run_callback` (src/ios.rs
lines 84-94): query `CACurrentMediaTime()` (`osCurTime`) and
`Instant::now()` (`rustCurTime`), take `start_os = t` (the reported
timestamp), compute the signed difference `d = os_cur_time - start_os`,
convert it with `from_secs_f64` (a panic there aborts the process), and
set `start_rust = rust_cur_time - d`.  The source also carries
`debug_assert!(start_os <= os_cur_time)`, which additionally panics in
debug builds when the reported timestamp exceeds the queried time. -/
def establishAnchor (t osCurTime : F64) (rustCurTime : Instant) :
    Except ConvError (F64 × Instant) :=
  let startOs := t
  match from_secs_f64 (osCurTime.sub startOs) with
  | .error e => .error e
  | .ok d => .ok (startOs, rustCurTime.subDur d)

/-- The body of `run_callback` in src/ios.rs (inside `catch_unwind`,
user-callback invocation excluded): fetch or establish the anchor, then
compute `t = t + duration`, `diff = from_secs_f64(t - start_os)` and the
delivered instant `start_rust + diff`.  Returns the updated callback
state and the instant handed to the user callback; a `from_secs_f64`
panic is the error case (which aborts the process). -/
def run_callback (cb : Callback) (t duration : F64) (osCurTime : F64)
    (rustCurTime : Instant) : Except ConvError (Callback × Instant) :=
  match cb.start_time with
  | some (startOs, startRust) =>
    match from_secs_f64 ((t.add duration).sub startOs) with
    | .error e => .error e
    | .ok diff => .ok (cb, startRust.addDur diff)
  | none =>
    match establishAnchor t osCurTime rustCurTime with
    | .error e => .error e
    | .ok (startOs, startRust) =>
      match from_secs_f64 ((t.add duration).sub startOs) with
      | .error e => .error e
      | .ok diff => .ok (⟨some (startOs, startRust)⟩, startRust.addDur diff)

/-- Harness: one translation with a fixed anchor `a`, as the spec's
formula reads it off the anchored arm of `run_callback`. -/
def translateWith (a : F64 × Instant) (t duration : F64) :
    Except ConvError Instant :=
  match from_secs_f64 ((t.add duration).sub a.1) with
  | .error e => .error e
  | .ok diff => .ok (a.2.addDur diff)

/-- Harness: the list of translations of several firings, all with the
same fixed anchor `a`. -/
def translateAll (a : F64 × Instant) :
    List (F64 × F64) → Except ConvError (List Instant)
  | [] => .ok []
  | (t, dur) :: rest =>
    match translateWith a t dur with
    | .error e => .error e
    | .ok i =>
      match translateAll a rest with
      | .error e => .error e
      | .ok is => .ok (i :: is)

/-- Harness: fire the iOS trampoline body once per list element (each
element supplies the reported timestamp, the frame duration, and the
`CACurrentMediaTime` / `Instant::now` values that would be queried if
the anchor were still unset), threading the callback state through and
collecting the delivered instants. -/
def fireMany (cb : Callback) :
    List (F64 × F64 × F64 × Instant) → Except ConvError (Callback × List Instant)
  | [] => .ok (cb, [])
  | (t, dur, osCur, rustCur) :: rest =>
    match run_callback cb t dur osCur rustCur with
    | .error e => .error e
    | .ok (cb', i) =>
      match fireMany cb' rest with
      | .error e => .error e
      | .ok (cbF, is) => .ok (cbF, i :: is)

/-- The body of `render` in src/macos.rs (inside `catch_unwind`): the
delivered instant is `mem::transmute(in_out_timestamp.host_time)` — the
raw `u64` host tick count reinterpreted as the `Instant`'s
representation.  No anchor is consulted or established and no
seconds-to-duration conversion happens on this backend. -/
def render (host_time : ℕ) : Instant := (host_time : ℤ)

/-- Modelled from the spec's words (for comparison with the code): the
translated instant the spec's formula prescribes, `monotonic_reference +
duration_from_seconds(reported_timestamp + frame_duration -
native_reference)`, or `none` when the conversion fails. -/
def spec_translated_instant (nativeRef : F64) (monotonicRef : Instant)
    (t duration : F64) : Option Instant :=
  match from_secs_f64 ((t.add duration).sub nativeRef) with
  | .error _ => none
  | .ok d => some (monotonicRef.addDur d)

/-- Causes of a panic inside a trampoline body: a `from_secs_f64` panic
(time conversion) or a panic raised by the user callback. -/
inductive PanicCause where
  | conv : ConvError → PanicCause
  | user : PanicCause
deriving DecidableEq

/-- Possible behaviors at the foreign-callback boundary.  The code only
ever produces `returns` and `aborted`; `unwound` (a panic escaping into
the foreign caller) and `typedError` (a fault surfaced to the caller as
an ordinary error value) are in the outcome space so their absence is a
theorem, not a tautology. -/
inductive TrampolineOutcome (α : Type) where
  | returns : α → TrampolineOutcome α
  | aborted : TrampolineOutcome α
  | unwound : PanicCause → TrampolineOutcome α
  | typedError : PanicCause → TrampolineOutcome α
deriving DecidableEq

/-- True exactly for the `unwound` outcome. -/
def TrampolineOutcome.isUnwound {α : Type} : TrampolineOutcome α → Bool
  | .unwound _ => true
  | _ => false

/-- True exactly for the `typedError` outcome. -/
def TrampolineOutcome.isTypedError {α : Type} : TrampolineOutcome α → Bool
  | .typedError _ => true
  | _ => false

/-- True exactly for the `aborted` outcome. -/
def TrampolineOutcome.isAborted {α : Type} : TrampolineOutcome α → Bool
  | .aborted => true
  | _ => false

/-- The `match panic::catch_unwind(..) { Err(_) => process::abort(), _ => {} }`
pattern shared by `run_callback` (src/ios.rs) and `render`
(src/macos.rs): a panicking body aborts the process, a normal body
returns its value. -/
def catchUnwindAbort {α : Type} : Except PanicCause α → TrampolineOutcome α
  | .error _ => .aborted
  | .ok a => .returns a

/-- The full iOS trampoline `run_callback` including the fault boundary:
state retrieval, time translation and the user callback all run inside
`catch_unwind`; `userPanics` tells, per delivered instant, whether the
user callback panics on it. -/
def ios_trampoline (cb : Callback) (t duration osCurTime : F64)
    (rustCurTime : Instant) (userPanics : Instant → Bool) :
    TrampolineOutcome Callback :=
  catchUnwindAbort
    (match run_callback cb t duration osCurTime rustCurTime with
     | .error e => .error (.conv e)
     | .ok (cb', i) => if userPanics i then .error .user else .ok cb')

/-- The full macOS trampoline `render` including the fault boundary: the
body transmutes the host time, runs the user callback on it, and
evaluates to the `i32` result 0; `catch_unwind` turns a user panic into
an abort. -/
def macos_trampoline (host_time : ℕ) (userPanics : Instant → Bool) :
    TrampolineOutcome Int :=
  catchUnwindAbort
    (if userPanics (render host_time) then .error .user else .ok 0)

/-- `PauseError` from src/lib.rs. -/
inductive PauseError where
  | alreadyPaused
deriving DecidableEq

/-- `ResumeError` from src/lib.rs. -/
inductive ResumeError where
  | alreadyRunning
deriving DecidableEq

/-- Calls made into the platform backend, for observing call ordering
and call counts. -/
inductive BackendEvent where
  | stop
  | start
  | setPausedTrue
  | setPausedFalse
  | invalidate
  | releaseCallbackState
  | teardown
deriving DecidableEq

/-- True when, among the backend calls of a trace, some stop primitive
(`stop` or `invalidate`) occurs strictly before the first release of the
callback state or backend teardown. -/
def stopPrecedesRelease (tr : List BackendEvent) : Bool :=
  (tr.takeWhile fun e =>
      !(e == BackendEvent.releaseCallbackState || e == BackendEvent.teardown)).any
    fun e => e == BackendEvent.stop || e == BackendEvent.invalidate

namespace macos

/-- The macOS `DisplayLink` struct (src/macos.rs): the `is_paused` flag.
The boxed callback and the raw `CVDisplayLink` are opaque here; their
release order is modelled by `dropTrace`. -/
structure DisplayLink where
  is_paused : Bool
deriving DecidableEq

/-- `DisplayLink::new` (src/macos.rs): box the callback, allocate the
raw display link (`RawDisplayLink::new()?` — the only failure point),
register the render callback, and return the handle with
`is_paused: true`. -/
def new (backendAllocOk : Bool) : Option DisplayLink :=
  if backendAllocOk then some ⟨true⟩ else none

/-- `DisplayLink::is_paused` (src/macos.rs). -/
def is_paused (s : DisplayLink) : Bool := s.is_paused

/-- `DisplayLink::pause` (src/macos.rs): already paused is an error with
no state change and no backend call; otherwise stop the link and set the
flag.  Returns the result/new state and the backend calls made. -/
def pause (s : DisplayLink) : Except PauseError DisplayLink × List BackendEvent :=
  if s.is_paused then
    (.error .alreadyPaused, [])
  else
    (.ok ⟨true⟩, [.stop])

/-- `DisplayLink::resume` (src/macos.rs): already running is an error
with no state change and no backend call; otherwise start the link and
clear the flag. -/
def resume (s : DisplayLink) : Except ResumeError DisplayLink × List BackendEvent :=
  if !s.is_paused then
    (.error .alreadyRunning, [])
  else
    (.ok ⟨false⟩, [.start])

/-- `Drop for DisplayLink` (src/macos.rs): stop the link if running,
then the fields drop in declaration order — the boxed callback state
(`func`) is released, then the raw display link is torn down. -/
def dropTrace (s : DisplayLink) : List BackendEvent :=
  (if !s.is_paused then [.stop] else []) ++ [.releaseCallbackState, .teardown]

/-- A firing can reach the user callback only while the link is running
(`CVDisplayLinkStart` has been called and not stopped). -/
def canFire (s : DisplayLink) : Bool := !s.is_paused

end macos

namespace ios

/-- The iOS `DisplayLink`'s observable lifecycle state: the native
`CADisplayLink` paused flag (the Rust struct holds only opaque pointers;
`is_paused()` reads this native flag). -/
structure DisplayLink where
  native_paused : Bool
deriving DecidableEq

/-- `DisplayLink::new` (src/ios.rs): register the callback class once,
allocate the callback holder and the `CADisplayLink`, set the native
paused flag to `YES`, add the link to the current run loop and return
`Some` — unconditionally: no arm of the function produces `None`, so the
outcome of native allocation (`backendAllocOk`) is never consulted. -/
def new (backendAllocOk : Bool) : Option DisplayLink :=
  some ⟨true⟩

/-- `DisplayLink::is_paused` (src/ios.rs): `NO != self.display_link.is_paused()`. -/
def is_paused (s : DisplayLink) : Bool := s.native_paused

/-- `DisplayLink::pause` (src/ios.rs): already paused is an error with
no state change and no backend call; otherwise `set_paused(YES)`. -/
def pause (s : DisplayLink) : Except PauseError DisplayLink × List BackendEvent :=
  if is_paused s then
    (.error .alreadyPaused, [])
  else
    (.ok ⟨true⟩, [.setPausedTrue])

/-- `DisplayLink::resume` (src/ios.rs): already running is an error with
no state change and no backend call; otherwise `set_paused(NO)`. -/
def resume (s : DisplayLink) : Except ResumeError DisplayLink × List BackendEvent :=
  if !is_paused s then
    (.error .alreadyRunning, [])
  else
    (.ok ⟨false⟩, [.setPausedFalse])

/-- `Drop for DisplayLink` (src/ios.rs): `drop_callback(raw_callback)`
releases the heap `Callback` state first; then the fields drop in
declaration order, releasing the native `CADisplayLink`.  No arm calls
`invalidate`, `set_paused` or any other stop primitive, in any state. -/
def dropTrace (s : DisplayLink) : List BackendEvent :=
  [.releaseCallbackState, .teardown]

/-- A firing can reach the user callback only while the native link is
not paused. -/
def canFire (s : DisplayLink) : Bool := !s.native_paused

end ios

/-! ### Characterization lemmas for the embedded arithmetic -/

lemma F64.add_fin (a b : ℚ) : F64.add (.fin a) (.fin b) = .fin (a + b) := rfl

lemma F64.neg_fin (b : ℚ) :
    F64.neg (.fin b) = if b = 0 then .negZero else .fin (-b) := rfl

lemma F64.sub_fin (a b : ℚ) : F64.sub (.fin a) (.fin b) = .fin (a - b) := by
  by_cases hb : b = 0
  · subst hb
    show F64.add (.fin a) (F64.neg (.fin 0)) = _
    simp [F64.neg, F64.add]
  · show F64.add (.fin a) (F64.neg (.fin b)) = _
    rw [F64.neg_fin, if_neg hb, F64.add_fin]
    ring_nf

lemma F64.mul_fin (a b : ℚ) :
    F64.mul (.fin a) (.fin b) =
      if a * b = 0 then
        (if decide (a < 0) == decide (b < 0) then .fin 0 else .negZero)
      else .fin (a * b) := rfl

lemma F64.isFinite_mul_fin (a b : ℚ) :
    (F64.mul (.fin a) (.fin b)).isFinite = true := by
  rw [F64.mul_fin]
  split_ifs <;> rfl

lemma F64.toRat_mul_fin (a b : ℚ) :
    (F64.mul (.fin a) (.fin b)).toRat = a * b := by
  rw [F64.mul_fin]
  split_ifs with h h2
  · rw [h]; rfl
  · rw [h]; rfl
  · rfl

/-- Full characterization of `from_secs_f64` on finite input. -/
lemma from_secs_f64_fin (q : ℚ) :
    from_secs_f64 (.fin q) =
      if MAX_NANOS_F64 ≤ q * (NANOS_PER_SEC : ℚ) then .error .overflow
      else if q * (NANOS_PER_SEC : ℚ) < 0 then .error .underflow
      else .ok ⟨(Rat.floor (q * (NANOS_PER_SEC : ℚ))).toNat / NANOS_PER_SEC,
                (Rat.floor (q * (NANOS_PER_SEC : ℚ))).toNat % NANOS_PER_SEC⟩ := by
  unfold from_secs_f64
  simp only [F64.isFinite_mul_fin, F64.toRat_mul_fin, Bool.not_true, Bool.false_eq_true,
    if_false]

lemma from_secs_f64_inf : from_secs_f64 .inf = .error .nonFinite := by
  unfold from_secs_f64
  have h : F64.mul .inf (.fin (NANOS_PER_SEC : ℚ)) = .inf := by
    show (if (F64.fin (NANOS_PER_SEC : ℚ)).isZero then F64.nan
          else if (F64.fin (NANOS_PER_SEC : ℚ)).isNeg then F64.negInf else F64.inf) = F64.inf
    have h0 : ((NANOS_PER_SEC : ℕ) : ℚ) ≠ 0 := by norm_num [NANOS_PER_SEC]
    have h1 : ¬ ((NANOS_PER_SEC : ℕ) : ℚ) < 0 := by norm_num [NANOS_PER_SEC]
    simp [F64.isZero, F64.isNeg, h0, h1]
  rw [h]
  rfl

/-- Negative zero times the positive constant 10^9 is negative zero
(zero magnitude, differing signs). -/
lemma F64.mul_negZero_nanos :
    F64.mul .negZero (.fin (NANOS_PER_SEC : ℚ)) = .negZero := by
  show (if (0 : ℚ) * (NANOS_PER_SEC : ℚ) = 0 then
          (if (F64.negZero.isNeg == (F64.fin (NANOS_PER_SEC : ℚ)).isNeg) = true
           then F64.fin 0 else F64.negZero)
        else F64.fin ((0 : ℚ) * (NANOS_PER_SEC : ℚ))) = F64.negZero
  have h1 : ¬ ((NANOS_PER_SEC : ℕ) : ℚ) < 0 := by norm_num [NANOS_PER_SEC]
  simp [F64.isNeg, h1]

lemma from_secs_f64_negZero : from_secs_f64 .negZero = .ok ⟨0, 0⟩ := by
  unfold from_secs_f64
  rw [F64.mul_negZero_nanos]
  have h2 : ¬ MAX_NANOS_F64 ≤ F64.toRat .negZero := by
    norm_num [F64.toRat, MAX_NANOS_F64]
  have h3 : ¬ F64.toRat .negZero < 0 := by norm_num [F64.toRat]
  simp only [F64.isFinite, Bool.not_true, Bool.false_eq_true, if_false, h2, h3]
  rfl

/-- With an established anchor, the trampoline body is exactly one
anchored translation and leaves the state untouched. -/
lemma run_callback_some (a : F64 × Instant) (t dur osCur : F64) (rustCur : Instant) :
    run_callback ⟨some a⟩ t dur osCur rustCur =
      (translateWith a t dur).map fun i => (⟨some a⟩, i) := by
  obtain ⟨ns, ms⟩ := a
  unfold run_callback translateWith
  cases h : from_secs_f64 ((t.add dur).sub ns) <;> simp [h, Except.map]

/-- With no anchor yet, the trampoline body establishes one and then
performs the same anchored translation with it. -/
lemma run_callback_none (t dur osCur : F64) (rustCur : Instant) :
    run_callback ⟨none⟩ t dur osCur rustCur =
      (establishAnchor t osCur rustCur).bind fun a =>
        (translateWith a t dur).map fun i => (⟨some a⟩, i) := by
  unfold run_callback translateWith
  cases h : establishAnchor t osCur rustCur with
  | error e => simp [h, Except.bind]
  | ok a =>
    obtain ⟨ns, ms⟩ := a
    cases h2 : from_secs_f64 ((t.add dur).sub ns) <;>
      simp [h, h2, Except.bind, Except.map]

/-- Firing any number of times from an established anchor `a` is exactly
the list of anchored translations with the same unmutated `a`, and the
final state still holds `a`. -/
lemma fireMany_some (a : F64 × Instant) (fires : List (F64 × F64 × F64 × Instant)) :
    fireMany ⟨some a⟩ fires =
      (translateAll a (fires.map fun q => (q.1, q.2.1))).map fun is =>
        ((⟨some a⟩ : Callback), is) := by
  induction fires with
  | nil => rfl
  | cons f rest ih =>
    obtain ⟨t, dur, osCur, rustCur⟩ := f
    simp only [fireMany, List.map_cons, translateAll,
      run_callback_some a t dur osCur rustCur]
    cases h : translateWith a t dur with
    | error e => simp [Except.map]
    | ok i =>
      simp only [Except.map]
      rw [ih]
      cases h2 : translateAll a (rest.map fun q => (q.1, q.2.1)) <;>
        simp [Except.map]

/-- When the body fails (conversion panic), the iOS trampoline aborts. -/
lemma ios_trampoline_error (cb : Callback) (t dur osCur : F64) (rustCur : Instant)
    (userPanics : Instant → Bool) (e : ConvError)
    (h : run_callback cb t dur osCur rustCur = .error e) :
    ios_trampoline cb t dur osCur rustCur userPanics = .aborted := by
  unfold ios_trampoline
  rw [h]
  rfl

/-- When the body succeeds, the iOS trampoline aborts exactly when the
user callback panics on the delivered instant. -/
lemma ios_trampoline_ok (cb cb' : Callback) (t dur osCur : F64)
    (rustCur i : Instant) (userPanics : Instant → Bool)
    (h : run_callback cb t dur osCur rustCur = .ok (cb', i)) :
    ios_trampoline cb t dur osCur rustCur userPanics =
      if userPanics i then .aborted else .returns cb' := by
  unfold ios_trampoline
  rw [h]
  cases hup : userPanics i <;> simp [catchUnwindAbort, hup]

/-- Splitting a nanosecond count into whole seconds and remainder and
re-totalling it is the identity. -/
lemma Duration.toNanos_div_mod (n : ℕ) :
    Duration.toNanos ⟨n / NANOS_PER_SEC, n % NANOS_PER_SEC⟩ = n := by
  show n / NANOS_PER_SEC * NANOS_PER_SEC + n % NANOS_PER_SEC = n
  unfold NANOS_PER_SEC
  omega

lemma from_secs_f64_zero : from_secs_f64 (.fin 0) = .ok ⟨0, 0⟩ := by
  rw [from_secs_f64_fin]
  have e : (0 : ℚ) * (NANOS_PER_SEC : ℚ) = 0 := by norm_num
  rw [e, if_neg (by norm_num [MAX_NANOS_F64]), if_neg (by norm_num)]
  have hf : (Rat.floor (0 : ℚ)).toNat = 0 := by decide
  rw [hf]
  simp [NANOS_PER_SEC]

lemma from_secs_f64_one : from_secs_f64 (.fin 1) = .ok ⟨1, 0⟩ := by
  rw [from_secs_f64_fin]
  have e : (1 : ℚ) * (NANOS_PER_SEC : ℚ) = 1000000000 := by norm_num [NANOS_PER_SEC]
  rw [e, if_neg (by norm_num [MAX_NANOS_F64]), if_neg (by norm_num)]
  have hf : (Rat.floor (1000000000 : ℚ)).toNat = 1000000000 := by decide
  rw [hf]
  simp [NANOS_PER_SEC]

/-! ### Claim theorems -/

/-- C1 (amended): on the iOS backend, once the anchor
`(native_reference, monotonic_reference) = (ns, ms)` is established,
every firing with reported timestamp `t` and frame duration `dur`
delivers exactly `ms + from_secs_f64 (t + dur - ns)` (failure of the
conversion being the panic/abort case); the macOS backend, by contrast,
performs no translation at all — its trampoline delivers the raw
reinterpreted `host_time`, consulting no anchor. -/
theorem C1_translation_formula :
    (∀ (ns : F64) (ms : Instant) (t dur osCur : F64) (rustCur : Instant),
      run_callback ⟨some (ns, ms)⟩ t dur osCur rustCur =
        (from_secs_f64 ((t.add dur).sub ns)).map fun d =>
          ((⟨some (ns, ms)⟩ : Callback), Instant.addDur ms d)) ∧
    (∀ host_time : ℕ, render host_time = (host_time : ℤ)) := by
  constructor
  · intro ns ms t dur osCur rustCur
    rw [run_callback_some (ns, ms) t dur osCur rustCur]
    unfold translateWith
    cases h : from_secs_f64 ((t.add dur).sub ns) <;> simp [h, Except.map]
  · intro host_time
    rfl

/-- C1 counterexample: on the macOS backend the claim's equation fails
at a concrete input.  With anchor (native_reference 7, monotonic
reference 8), reported timestamp 7 and frame duration 0, the claim's
formula prescribes the instant 8, but the macOS trampoline delivers the
raw host time 7 — the delivered instant does not depend on the anchor at
all. -/
theorem C1_macos_counterexample :
    spec_translated_instant (F64.fin 7) 8 (F64.fin 7) (F64.fin 0) = some 8 ∧
    render 7 = 7 ∧
    decide (spec_translated_instant (F64.fin 7) 8 (F64.fin 7) (F64.fin 0) =
      some (render 7)) = false := by
  have h1 : spec_translated_instant (F64.fin 7) 8 (F64.fin 7) (F64.fin 0) = some 8 := by
    unfold spec_translated_instant
    rw [F64.add_fin, F64.sub_fin]
    have e : ((7 : ℚ) + 0 - 7) = 0 := by norm_num
    rw [e, from_secs_f64_zero]
    simp [Instant.addDur, Duration.toNanos]
  refine ⟨h1, rfl, decide_eq_false ?_⟩
  intro hP
  rw [h1] at hP
  exact absurd hP (by decide)

/-- C2: the translation anchor is set at most once per `Callback`.  The
three equations say: (a) a firing with an established anchor `a` is one
anchored translation returning the state `⟨some a⟩` unchanged; (b) the
first firing (no anchor) establishes the anchor and immediately
translates with it; (c) firing N times from an established anchor `a` is
exactly the N translations with the identical, unmutated `a`, and the
final state still holds `a`. -/
theorem C2_anchor_established_once :
    (∀ (a : F64 × Instant) (t dur osCur : F64) (rustCur : Instant),
      run_callback ⟨some a⟩ t dur osCur rustCur =
        (translateWith a t dur).map fun i => ((⟨some a⟩ : Callback), i)) ∧
    (∀ (t dur osCur : F64) (rustCur : Instant),
      run_callback ⟨none⟩ t dur osCur rustCur =
        (establishAnchor t osCur rustCur).bind fun a =>
          (translateWith a t dur).map fun i => ((⟨some a⟩ : Callback), i)) ∧
    (∀ (a : F64 × Instant) (fires : List (F64 × F64 × F64 × Instant)),
      fireMany ⟨some a⟩ fires =
        (translateAll a (fires.map fun q => (q.1, q.2.1))).map fun is =>
          ((⟨some a⟩ : Callback), is)) :=
  ⟨run_callback_some, run_callback_none, fireMany_some⟩

/-- C3 (code bug on the iOS backend): dropping a running macOS handle
emits stop, then releases the callback state, then tears down — stop
precedes the release as the claim requires.  Dropping a running iOS
handle, however, releases the heap callback state first and never
invokes any stop/invalidate primitive, contradicting the claim (and the
spec's stated intent of preventing the backend from firing into freed
memory). -/
theorem C3_drop_call_order :
    macos.dropTrace ⟨false⟩ = [.stop, .releaseCallbackState, .teardown] ∧
    stopPrecedesRelease (macos.dropTrace ⟨false⟩) = true ∧
    ios.dropTrace ⟨false⟩ = [.releaseCallbackState, .teardown] ∧
    stopPrecedesRelease (ios.dropTrace ⟨false⟩) = false ∧
    decide (BackendEvent.stop ∈ ios.dropTrace ⟨false⟩) = false ∧
    decide (BackendEvent.invalidate ∈ ios.dropTrace ⟨false⟩) = false :=
  ⟨rfl, rfl, rfl, rfl, rfl, rfl⟩

/-- C4: the seconds-to-duration conversion fails with underflow on
-0.001, fails with the non-finite condition on infinity, fails with
overflow exactly when the nanosecond count reaches 2^64 * 10^9 (the
first count that does not fit the `u64` seconds of a `Duration`), and
maps 1.5 to exactly 1 second and 500,000,000 nanoseconds. -/
theorem C4_from_secs_f64_cases :
    from_secs_f64 (.fin (-1/1000)) = .error .underflow ∧
    from_secs_f64 .inf = .error .nonFinite ∧
    (∀ q : ℚ, from_secs_f64 (.fin q) = .error .overflow ↔
      2 ^ 64 * (NANOS_PER_SEC : ℚ) ≤ q * (NANOS_PER_SEC : ℚ)) ∧
    from_secs_f64 (.fin (3/2)) = .ok ⟨1, 500000000⟩ := by
  refine ⟨?_, from_secs_f64_inf, ?_, ?_⟩
  · rw [from_secs_f64_fin]
    have e : (-1/1000 : ℚ) * (NANOS_PER_SEC : ℚ) = -1000000 := by
      norm_num [NANOS_PER_SEC]
    rw [e, if_neg (by norm_num [MAX_NANOS_F64]), if_pos (by norm_num)]
  · intro q
    rw [from_secs_f64_fin]
    have hmax : MAX_NANOS_F64 = 2 ^ 64 * (NANOS_PER_SEC : ℚ) := by
      norm_num [MAX_NANOS_F64, NANOS_PER_SEC]
    rw [hmax]
    split_ifs with h1 h2
    · simp [h1]
    · simp [h1]
    · simp [h1]
  · rw [from_secs_f64_fin]
    have e : (3/2 : ℚ) * (NANOS_PER_SEC : ℚ) = 1500000000 := by
      norm_num [NANOS_PER_SEC]
    rw [e, if_neg (by norm_num [MAX_NANOS_F64]), if_neg (by norm_num)]
    have hf : (Rat.floor (1500000000 : ℚ)).toNat = 1500000000 := by decide
    rw [hf]
    simp [NANOS_PER_SEC]

/-- C5: on both backends, `pause` fails with `AlreadyPaused` exactly
when the state is already paused and `resume` fails with
`AlreadyRunning` exactly when it is already running; the failing calls
change no state and make no backend call, while the legal calls
transition the state and make exactly one corresponding backend call. -/
theorem C5_pause_resume_legality :
    (∀ s : macos.DisplayLink,
      macos.pause s = (if s.is_paused then (.error .alreadyPaused, [])
                       else (.ok ⟨true⟩, [.stop])) ∧
      macos.resume s = (if s.is_paused then (.ok ⟨false⟩, [.start])
                        else (.error .alreadyRunning, []))) ∧
    (∀ s : ios.DisplayLink,
      ios.pause s = (if s.native_paused then (.error .alreadyPaused, [])
                     else (.ok ⟨true⟩, [.setPausedTrue])) ∧
      ios.resume s = (if s.native_paused then (.ok ⟨false⟩, [.setPausedFalse])
                      else (.error .alreadyRunning, []))) := by
  constructor
  · intro s
    obtain ⟨p⟩ := s
    cases p <;> exact ⟨rfl, rfl⟩
  · intro s
    obtain ⟨p⟩ := s
    cases p <;> exact ⟨rfl, rfl⟩

/-- C6: every fault inside either trampoline body (time conversion or
the user callback) makes the trampoline abort; no input makes it unwind
into the foreign caller, and no input makes it hand a fault to the
caller as a typed error. -/
theorem C6_trampoline_fault_boundary :
    (∀ (cb : Callback) (t dur osCur : F64) (rustCur : Instant)
        (userPanics : Instant → Bool),
      (ios_trampoline cb t dur osCur rustCur userPanics).isUnwound = false ∧
      (ios_trampoline cb t dur osCur rustCur userPanics).isTypedError = false ∧
      ((ios_trampoline cb t dur osCur rustCur userPanics).isAborted = true ↔
        (∃ e, run_callback cb t dur osCur rustCur = .error e) ∨
        (∃ cb' i, run_callback cb t dur osCur rustCur = .ok (cb', i) ∧
          userPanics i = true))) ∧
    (∀ (host_time : ℕ) (userPanics : Instant → Bool),
      (macos_trampoline host_time userPanics).isUnwound = false ∧
      (macos_trampoline host_time userPanics).isTypedError = false ∧
      ((macos_trampoline host_time userPanics).isAborted = true ↔
        userPanics (render host_time) = true)) := by
  constructor
  · intro cb t dur osCur rustCur userPanics
    cases h : run_callback cb t dur osCur rustCur with
    | error e =>
      rw [ios_trampoline_error cb t dur osCur rustCur userPanics e h]
      refine ⟨rfl, rfl, ?_⟩
      simp only [TrampolineOutcome.isAborted, true_iff]
      exact Or.inl ⟨e, rfl⟩
    | ok p =>
      obtain ⟨cb', i⟩ := p
      rw [ios_trampoline_ok cb cb' t dur osCur rustCur i userPanics h]
      cases hup : userPanics i with
      | true =>
        refine ⟨rfl, rfl, ?_⟩
        simp only [if_true, TrampolineOutcome.isAborted, true_iff]
        exact Or.inr ⟨cb', i, rfl, hup⟩
      | false =>
        simp only [Bool.false_eq_true, if_false]
        refine ⟨rfl, rfl, ?_⟩
        simp only [TrampolineOutcome.isAborted, Bool.false_eq_true, false_iff]
        rintro (⟨e, he⟩ | ⟨cb2, i2, hok, hup2⟩)
        · exact absurd he (by simp)
        · injection hok with hpair
          cases hpair
          rw [hup] at hup2
          exact Bool.noConfusion hup2
  · intro host_time userPanics
    unfold macos_trampoline
    cases hup : userPanics (render host_time) with
    | true => exact ⟨rfl, rfl, by simp [catchUnwindAbort, TrampolineOutcome.isAborted, hup]⟩
    | false => exact ⟨rfl, rfl, by simp [catchUnwindAbort, TrampolineOutcome.isAborted, hup]⟩

/-- C7 counterexample: anchor establishment does not tolerate a
reported timestamp that follows the queried current time.  With
reported timestamp 2 and queried current time 1, the signed difference
1 - 2 is negative and the seconds-to-duration conversion fails with the
underflow panic (process abort) instead of succeeding. -/
theorem C7_counterexample :
    establishAnchor (F64.fin 2) (F64.fin 1) 0 = .error .underflow := by
  simp only [establishAnchor]
  rw [F64.sub_fin]
  have e : ((1 : ℚ) - 2) = -1 := by norm_num
  rw [e]
  have h : from_secs_f64 (.fin (-1)) = .error .underflow := by
    rw [from_secs_f64_fin]
    have e2 : (-1 : ℚ) * (NANOS_PER_SEC : ℚ) = -1000000000 := by
      norm_num [NANOS_PER_SEC]
    rw [e2, if_neg (by norm_num [MAX_NANOS_F64]), if_pos (by norm_num)]
  rw [h]

/-- C7 (amended): anchor establishment computes the signed offset
`os_current_time - reported_time` (and in debug builds additionally
asserts `reported <= current`).  It succeeds — anchoring the native
reference at the reported timestamp — whenever the reported timestamp
does not exceed the queried current time (and the offset is
representable), and it fails with the underflow panic, aborting the
process, whenever the reported timestamp strictly exceeds the queried
current time.  The absolute-offset, either-ordering behavior the claim
describes is not what the code does. -/
theorem C7_anchor_ordering :
    (∀ (t osCur : ℚ) (rustCur : Instant), t ≤ osCur → osCur - t < 2 ^ 64 →
      establishAnchor (F64.fin t) (F64.fin osCur) rustCur =
        .ok (F64.fin t,
          rustCur - (((Rat.floor ((osCur - t) * (NANOS_PER_SEC : ℚ))).toNat : ℕ) : ℤ))) ∧
    (∀ (t osCur : ℚ) (rustCur : Instant), osCur < t →
      establishAnchor (F64.fin t) (F64.fin osCur) rustCur = .error .underflow) := by
  have hN : (0 : ℚ) < (NANOS_PER_SEC : ℚ) := by norm_num [NANOS_PER_SEC]
  constructor
  · intro t osCur rustCur hle hlt
    simp only [establishAnchor]
    rw [F64.sub_fin, from_secs_f64_fin]
    have h1 : ¬ MAX_NANOS_F64 ≤ (osCur - t) * (NANOS_PER_SEC : ℚ) := by
      have hmax : MAX_NANOS_F64 = 2 ^ 64 * (NANOS_PER_SEC : ℚ) := by
        norm_num [MAX_NANOS_F64, NANOS_PER_SEC]
      rw [hmax]
      exact not_le.mpr (mul_lt_mul_of_pos_right hlt hN)
    have h2 : ¬ (osCur - t) * (NANOS_PER_SEC : ℚ) < 0 :=
      not_lt.mpr (mul_nonneg (by linarith) (le_of_lt hN))
    rw [if_neg h1, if_neg h2]
    simp only [Instant.subDur, Duration.toNanos_div_mod]
  · intro t osCur rustCur hlt
    simp only [establishAnchor]
    rw [F64.sub_fin, from_secs_f64_fin]
    have hneg : (osCur - t) * (NANOS_PER_SEC : ℚ) < 0 :=
      mul_neg_of_neg_of_pos (by linarith) hN
    have h1 : ¬ MAX_NANOS_F64 ≤ (osCur - t) * (NANOS_PER_SEC : ℚ) := by
      have : (0 : ℚ) < MAX_NANOS_F64 := by norm_num [MAX_NANOS_F64]
      linarith
    rw [if_neg h1, if_pos hneg]

/-- C7 witness: the amended theorem applied at reported time 1 with
queried current time 2 (success, anchored at native reference 1) and at
reported time 3 with queried current time 1 (underflow abort). -/
theorem C7_anchor_ordering_witness :
    establishAnchor (F64.fin 1) (F64.fin 2) 0 =
      .ok (F64.fin 1,
        0 - (((Rat.floor (((2 : ℚ) - 1) * (NANOS_PER_SEC : ℚ))).toNat : ℕ) : ℤ)) ∧
    establishAnchor (F64.fin 3) (F64.fin 1) 0 = .error .underflow :=
  ⟨C7_anchor_ordering.1 1 2 0 (by norm_num) (by norm_num),
   C7_anchor_ordering.2 3 1 0 (by norm_num)⟩

/-- C8: construction yields a paused handle on both backends —
`is_paused` is true immediately after `new` returns `Some`, the firing
gate is closed, and it opens only through `resume`. -/
theorem C8_construction_paused :
    macos.new true = some ⟨true⟩ ∧
    (∀ ok, Option.all (fun l => macos.is_paused l) (macos.new ok) = true) ∧
    (∀ ok, ios.new ok = some ⟨true⟩) ∧
    ios.is_paused ⟨true⟩ = true ∧
    macos.canFire ⟨true⟩ = false ∧
    ios.canFire ⟨true⟩ = false ∧
    macos.resume ⟨true⟩ = (.ok ⟨false⟩, [.start]) ∧
    macos.canFire ⟨false⟩ = true ∧
    ios.resume ⟨true⟩ = (.ok ⟨false⟩, [.setPausedFalse]) ∧
    ios.canFire ⟨false⟩ = true := by
  refine ⟨rfl, ?_, ?_, rfl, rfl, rfl, rfl, rfl, rfl, rfl⟩
  · intro ok
    cases ok <;> rfl
  · intro ok
    rfl

/-- C9 (amended): on the macOS backend `new` returns `None` exactly when
the native timer object cannot be allocated; on the iOS backend `new`
always returns `Some` of a paused handle — no arm of the function
consults the allocation outcome, so construction failure is never
surfaced there. -/
theorem C9_new_option :
    (∀ ok, (macos.new ok).isNone = !ok) ∧
    macos.new true = some ⟨true⟩ ∧
    (∀ ok, ios.new ok = some ⟨true⟩) := by
  refine ⟨?_, rfl, ?_⟩
  · intro ok
    cases ok <;> rfl
  · intro ok
    rfl

/-- C9 counterexample: on the iOS backend, with the native allocation
failing, `new` still returns `Some` — refuting the claim that `None` is
returned exactly on allocation failure, on every backend. -/
theorem C9_ios_counterexample :
    ios.new false = some ⟨true⟩ ∧
    decide (ios.new false = none) = false :=
  ⟨rfl, rfl⟩

/-- C10: applied to negative zero, the conversion does not fail: the
nanosecond product is again negative zero, whose rational value 0 does
not satisfy the `< 0.0` underflow check, so the conversion returns the
zero duration. -/
theorem C10_negative_zero :
    from_secs_f64 .negZero = .ok ⟨0, 0⟩ ∧
    F64.mul .negZero (.fin (NANOS_PER_SEC : ℚ)) = .negZero ∧
    decide (F64.toRat .negZero < 0) = false :=
  ⟨from_secs_f64_negZero, F64.mul_negZero_nanos, rfl⟩

end DisplayLinkModel
